import Mathlib

/-!
Verification of the zeabur-monitor caching / session layer.

Shallow embedding of `src/cache.js`, `src/session-store.js` and the redis
client module.  Conventions:

* `Date.now()` is an explicit `now : Nat` field (milliseconds).
* JavaScript `Map` objects become association lists (`List (String × α)`)
  with `mapGet` / `mapSet` / `mapDelete` mirroring `Map.get` / `Map.set` /
  `Map.delete` (update-in-place of the first occurrence, append when absent).
* JSON-serializable values are the inductive `JValue` (numbers restricted to
  integers so that equality stays decidable).  A stored string is modelled by
  `Serialized α`: either the serialization of a value (`json v`, the result of
  `JSON.stringify`) or a malformed payload; `jsonParse` is `JSON.parse`, which
  fails exactly on malformed payloads.  This captures the round-trip law
  `JSON.parse (JSON.stringify v) = v` of the external JSON library.
* Exceptions that reach the caller are `Except.error`; redis commands that can
  themselves throw are covered by the `redisFaulty` flag (every remote command
  throws), which drives the `catch` branches of cache.js.
* The remote store keeps its own absolute expiry (`setex` native TTL); an
  expired remote key behaves as absent (`now < expiresAt` governs liveness).
-/

/-- JSON-representable values (numbers restricted to integers). -/
inductive JValue where
  | null : JValue
  | bool (b : Bool) : JValue
  | num (n : Int) : JValue
  | str (s : String) : JValue
deriving DecidableEq

/-- A stored payload string: either `JSON.stringify v` or malformed text. -/
inductive Serialized (α : Type) where
  | json (v : α) : Serialized α
  | malformed (raw : String) : Serialized α
deriving DecidableEq

/-- Model of `JSON.stringify` (external library, modelled abstractly). -/
def jsonStringify {α : Type} (v : α) : Serialized α := Serialized.json v

/-- Model of `JSON.parse` (external library): succeeds exactly on well-formed payloads. -/
def jsonParse {α : Type} : Serialized α → Except String α
  | Serialized.json v => Except.ok v
  | Serialized.malformed raw => Except.error ("SyntaxError: " ++ raw)

/-- JavaScript truthiness of a stored payload string (`if (data)`): the
serialization of a value is never the empty string, a malformed payload is
falsy iff it is empty. -/
def payloadTruthy {α : Type} : Serialized α → Bool
  | Serialized.json _ => true
  | Serialized.malformed raw => raw ≠ ""

/-- JavaScript `Map.get`: value of the first entry with the given key. -/
def mapGet {α : Type} : List (String × α) → String → Option α
  | [], _ => none
  | p :: t, k => if p.1 = k then some p.2 else mapGet t k

/-- JavaScript `Map.set`: update the entry in place when the key exists, append otherwise. -/
def mapSet {α : Type} : List (String × α) → String → α → List (String × α)
  | [], k, v => [(k, v)]
  | p :: t, k, v => if p.1 = k then (k, v) :: t else p :: mapSet t k v

/-- JavaScript `Map.delete`. -/
def mapDelete {α : Type} (m : List (String × α)) (k : String) : List (String × α) :=
  m.filter (fun p => p.1 ≠ k)

/-- The cache payload type stored by cache.js (`JSON.stringify(value)`). -/
abbrev Payload := Serialized JValue

/-- An entry of the fallback map of cache.js: serialized value plus absolute
expiry timestamp (`Date.now() + ttl * 1000`). -/
structure MemEntry where
  value : Payload
  expiresAt : Nat
deriving DecidableEq

/-- A remote-store entry written by `setex`: payload plus absolute expiry. -/
structure RedisEntry where
  value : Payload
  expiresAt : Nat
deriving DecidableEq

/-- The state cache.js operates on: availability flag (`isRedisAvailable() &&
client`), a fault flag (when set, every remote command throws — the `catch`
branches), the remote keyspace, the fallback `memoryCache` map and the clock. -/
structure CacheState where
  redisAvailable : Bool
  redisFaulty : Bool
  redis : List (String × RedisEntry)
  memoryCache : List (String × MemEntry)
  now : Nat
deriving DecidableEq

/-- Namespace literal `CACHE_PREFIX = 'cache:'` of cache.js. -/
def CACHE_NS : String := "cache:"

/-- The constant `DEFAULT_TTL = 60` seconds. -/
def DEFAULT_TTL : Nat := 60

/-- Remote `GET`: the payload when the key exists and is not past its native
expiry, otherwise absent. -/
def redisGetCmd (st : CacheState) (key : String) : Option Payload :=
  match mapGet st.redis key with
  | some e => if st.now < e.expiresAt then some e.value else none
  | none => none

/-- The operation `set(key, value, ttl)` of cache.js: serialize; when the remote store is
available and the write does not throw, `setex` there and return; otherwise
(unavailable, or the `catch` branch after a throw) write to the fallback map
with absolute expiry `Date.now() + ttl * 1000`.  Always returns `true`. -/
def Cache.set (st : CacheState) (key : String) (value : JValue) (ttl : Nat) :
    Bool × CacheState :=
  let fullKey := CACHE_NS ++ key
  let serialized := jsonStringify value
  if st.redisAvailable && !st.redisFaulty then
    (true, { st with redis := mapSet st.redis fullKey ⟨serialized, st.now + ttl * 1000⟩ })
  else
    (true, { st with memoryCache := mapSet st.memoryCache fullKey ⟨serialized, st.now + ttl * 1000⟩ })

/-- The fallback-map branch of `get`: absent gives `null`; a lazily expired
entry (`Date.now() > expiresAt`) is deleted and gives `null`; otherwise
`JSON.parse(cached.value)` whose failure propagates (no surrounding try). -/
def Cache.getMemory (st : CacheState) (fullKey : String) :
    Except String JValue × CacheState :=
  match mapGet st.memoryCache fullKey with
  | none => (Except.ok JValue.null, st)
  | some cached =>
    if st.now > cached.expiresAt then
      (Except.ok JValue.null, { st with memoryCache := mapDelete st.memoryCache fullKey })
    else
      match jsonParse cached.value with
      | Except.ok v => (Except.ok v, st)
      | Except.error e => (Except.error e, st)

/-- The operation `get(key)` of cache.js.  JavaScript conflates a cached `null` with absence:
both surface as `null`, modelled as `JValue.null`.  On the remote path the
whole body — including `JSON.parse(data)` — sits inside the `try`, so a remote
deserialization failure is caught and the call falls through to the fallback
map; a falsy (absent) remote payload returns `null` directly without consulting
the fallback map. -/
def Cache.get (st : CacheState) (key : String) : Except String JValue × CacheState :=
  let fullKey := CACHE_NS ++ key
  if st.redisAvailable && !st.redisFaulty then
    match redisGetCmd st fullKey with
    | some data =>
      if payloadTruthy data then
        match jsonParse data with
        | Except.ok v => (Except.ok v, st)
        | Except.error _ => Cache.getMemory st fullKey
      else (Except.ok JValue.null, st)
    | none => (Except.ok JValue.null, st)
  else
    Cache.getMemory st fullKey

/-!
`delByPattern` of cache.js.  The source builds the JavaScript regular
expression `'^' + fullPattern.replace(/\*/g, '.*') + '$'` and tests every
fallback-map key against it.  We model the generated regex by tokenizing the
(unreplaced) pattern: every `*` of the pattern becomes the two-character
regex atom-with-quantifier `.*` (match any string), a `.` of the pattern is
the regex any-character atom, and every other character is a literal.  This
tokenization is exact for patterns containing no regex metacharacter other
than `*` and `.` — since each `*` is replaced by the self-contained `.*`, it
never acts as a quantifier on the preceding character.
-/

/-- Tokens of the generated anchored regular expression. -/
inductive RTok where
  | lit (c : Char) : RTok
  | anyChar : RTok
  | anyStar : RTok
deriving DecidableEq

/-- JavaScript line terminators, which the regex `.` (without the `s` flag,
as in the source) does not match: LF, CR, U+2028 and U+2029. -/
def isLineTerminator (c : Char) : Bool :=
  c = '\n' || c = '\r' || c = '\u2028' || c = '\u2029'

/-- Suffix search used by the `.*` atom: does the continuation accept some
suffix reachable by consuming non-line-terminator characters?  (`.` without
the `s` flag cannot consume a line terminator.) -/
def starSearch (f : List Char → Bool) : List Char → Bool
  | [] => f []
  | x :: s => f (x :: s) || (!isLineTerminator x && starSearch f s)

/-- Anchored matching of a token list against a string (`regex.test` with the
`^...$` anchors of the source).  The `.` atom matches any single character
except a line terminator; the `.*` atom consumes an arbitrary sequence of
non-line-terminator characters, realised by `starSearch`. -/
def rmatch : List RTok → List Char → Bool
  | [], s => s.isEmpty
  | RTok.lit c :: ps, s =>
    match s with
    | [] => false
    | x :: t => c = x && rmatch ps t
  | RTok.anyChar :: ps, s =>
    match s with
    | [] => false
    | x :: t => !isLineTerminator x && rmatch ps t
  | RTok.anyStar :: ps, s => starSearch (rmatch ps) s

/-- Tokenization of the regex that `fullPattern.replace(/\*/g, '.*')`
produces (exact for patterns whose only regex metacharacters are `*`, `.`). -/
def regexOfPattern (p : List Char) : List RTok :=
  p.map (fun c => if c = '*' then RTok.anyStar else if c = '.' then RTok.anyChar else RTok.lit c)

/-- Modelled from the spec: the glob semantics the spec attributes to
`deleteByPattern` — `*` matches any character sequence, every other character
only itself.  Used to compare the source's regex translation against the
claimed glob behaviour. -/
def globToks (p : List Char) : List RTok :=
  p.map (fun c => if c = '*' then RTok.anyStar else RTok.lit c)

/-- Unrestricted suffix search: the glob wildcard may consume any character,
line terminators included (unlike the regex `.*`). -/
def anySuffixSearch (f : List Char → Bool) : List Char → Bool
  | [] => f []
  | x :: s => f (x :: s) || anySuffixSearch f s

/-- Modelled from the spec: anchored glob matching over a token list — a
wildcard consumes an arbitrary character sequence with no character-class
restriction. -/
def gmatch : List RTok → List Char → Bool
  | [], s => s.isEmpty
  | RTok.lit c :: ps, s =>
    match s with
    | [] => false
    | x :: t => c = x && gmatch ps t
  | RTok.anyChar :: ps, s =>
    match s with
    | [] => false
    | _ :: t => gmatch ps t
  | RTok.anyStar :: ps, s => anySuffixSearch (gmatch ps) s

/-- Modelled from the spec: glob matching with the single wildcard token `*`. -/
def globMatch (p s : String) : Bool :=
  gmatch (globToks p.toList) s.toList

/-- Remote `KEYS pattern`: the live (unexpired) keys matching the glob.
Faithful model of the redis glob for patterns without `?`, `[` or `\`. -/
def redisKeysCmd (st : CacheState) (pat : String) : List String :=
  (st.redis.filter (fun p => globMatch pat p.1 && decide (st.now < p.2.expiresAt))).map Prod.fst

/-- Remote `DEL k1 ... kn`: removes the keys and returns how many of them
actually existed (an expired key counts as non-existing). -/
def redisDelCmd (st : CacheState) (keys : List String) : Nat × CacheState :=
  ((keys.filter (fun k =>
      match mapGet st.redis k with
      | some e => decide (st.now < e.expiresAt)
      | none => false)).length,
   { st with redis := st.redis.filter (fun p => !(keys.contains p.1)) })

/-- The operation `delByPattern(pattern)` of cache.js: on the remote store (when available
and not throwing) `KEYS` then variadic `DEL`, counting the deletions; then an
unconditional sweep of the fallback map with the translated regex, counting
each deleted key; returns the summed count. -/
def Cache.delByPattern (st : CacheState) (pat : String) : Nat × CacheState :=
  let fullPattern := CACHE_NS ++ pat
  let step1 :=
    if st.redisAvailable && !st.redisFaulty then
      let keys := redisKeysCmd st fullPattern
      if keys.length > 0 then redisDelCmd st keys else (0, st)
    else (0, st)
  let toks := regexOfPattern fullPattern.toList
  let st1 := step1.2
  let matched := st1.memoryCache.filter (fun p => rmatch toks p.1.toList)
  (step1.1 + matched.length,
   { st1 with memoryCache := st1.memoryCache.filter (fun p => !(rmatch toks p.1.toList)) })

/-- The operation `getOrSet(key, fetchFn, ttl)` of cache.js.  The producer is represented by
the value it would yield (`none` = it yields `undefined`, `some d` = it yields
`d`, including `some JValue.null` for a produced `null`); the returned `Bool`
records whether the producer was invoked.  The source returns the cached value
when `cached !== null`, otherwise invokes the producer, stores its result
unless it is `undefined`, and returns it (`none` models an `undefined`
return). -/
def Cache.getOrSet (st : CacheState) (key : String) (producerResult : Option JValue)
    (ttl : Nat) : Except String (Option JValue) × CacheState × Bool :=
  match Cache.get st key with
  | (Except.error e, st1) => (Except.error e, st1, false)
  | (Except.ok cached, st1) =>
    if cached ≠ JValue.null then
      (Except.ok (some cached), st1, false)
    else
      match producerResult with
      | none => (Except.ok none, st1, true)
      | some data =>
        let st2 := (Cache.set st1 key data ttl).2
        (Except.ok (some data), st2, true)

/-!  Session store (`src/session-store.js`). -/

/-- The constant `SESSION_DURATION = 10 * 24 * 60 * 60 * 1000` milliseconds (10 days). -/
def SESSION_DURATION : Nat := 10 * 24 * 60 * 60 * 1000

/-- Namespace literal `SESSION_PREFIX = 'session:'`. -/
def SESSION_NS : String := "session:"

/-- A session record: userId, creation and absolute expiry timestamps. -/
structure SessionRecord where
  userId : String
  createdAt : Nat
  expiresAt : Nat
deriving DecidableEq

/-- State of session-store.js: availability flag, the remote keyspace
(serialized records with their native absolute expiry), the fallback
`memorySessions` map (which stores the record object directly, unserialized),
and the clock. -/
structure SessionState where
  redisAvailable : Bool
  redis : List (String × (Serialized SessionRecord × Nat))
  memorySessions : List (String × SessionRecord)
  now : Nat
deriving DecidableEq

/-- Remote `GET` against the session keyspace. -/
def sessionRedisGet (st : SessionState) (key : String) : Option (Serialized SessionRecord) :=
  match mapGet st.redis key with
  | some (v, exp) => if st.now < exp then some v else none
  | none => none

/-- Hexadecimal digit characters (`toString('hex')` is lowercase). -/
def hexDigit (n : Fin 16) : Char :=
  "0123456789abcdef".toList.getD n.val '0'

/-- Two-character lowercase hex encoding of one byte. -/
def byteToHexChars (b : Fin 256) : List Char :=
  [hexDigit ⟨b.val / 16, by omega⟩, hexDigit ⟨b.val % 16, by omega⟩]

/-- Lowercase hex encoding of a byte string (`Buffer.toString('hex')`). -/
def bytesToHex (bs : List (Fin 256)) : List Char :=
  (bs.map byteToHexChars).flatten

/-- The generator `generateSessionToken()`: `'session_' + crypto.randomBytes(32).toString('hex')`.
The randomness source is the explicit `bytes` argument (32 bytes in the
source). -/
def generateSessionToken (bytes : List (Fin 256)) : String :=
  "session_" ++ String.mk (bytesToHex bytes)

/-- The operation `createSession(userId)`: build the record with a 10-day expiry; when the
remote store is available, `setex` the serialized record under the prefixed
token for `Math.floor(SESSION_DURATION / 1000)` seconds, otherwise store the
record in the fallback map under the bare token. -/
def createSession (st : SessionState) (userId : String) (bytes : List (Fin 256)) :
    String × SessionState :=
  let token := generateSessionToken bytes
  let session : SessionRecord := ⟨userId, st.now, st.now + SESSION_DURATION⟩
  if st.redisAvailable then
    (token,
     { st with
       redis := mapSet st.redis (SESSION_NS ++ token)
         (jsonStringify session, st.now + (SESSION_DURATION / 1000) * 1000) })
  else
    (token, { st with memorySessions := mapSet st.memorySessions token session })

/-- The operation `destroySession(token)`: delete from whichever backend is active. -/
def destroySession (st : SessionState) (token : String) : SessionState :=
  if st.redisAvailable then
    { st with redis := mapDelete st.redis (SESSION_NS ++ token) }
  else
    { st with memorySessions := mapDelete st.memorySessions token }

/-- The operation `validateSession(token)`: a falsy (empty) token gives `null`; the remote
path deserializes a truthy payload with `JSON.parse` (no surrounding try — a
failure propagates), the fallback path reads the record object directly; a
record strictly past its expiry (`Date.now() > expiresAt`) is destroyed and
`null` returned, otherwise the record is returned. -/
def validateSession (st : SessionState) (token : String) :
    Except String (Option SessionRecord) × SessionState :=
  if token = "" then (Except.ok none, st)
  else
    let sessionOpt : Except String (Option SessionRecord) :=
      if st.redisAvailable then
        match sessionRedisGet st (SESSION_NS ++ token) with
        | some data =>
          if payloadTruthy data then
            match jsonParse data with
            | Except.ok s => Except.ok (some s)
            | Except.error e => Except.error e
          else Except.ok none
        | none => Except.ok none
      else Except.ok (mapGet st.memorySessions token)
    match sessionOpt with
    | Except.error e => (Except.error e, st)
    | Except.ok none => (Except.ok none, st)
    | Except.ok (some session) =>
      if st.now > session.expiresAt then
        (Except.ok none, destroySession st token)
      else (Except.ok (some session), st)

/-!  Redis client module (`redis-client.js`). -/

/-- The environment variables the redis client module reads.  `redisUrl` is
`process.env.REDIS_URL || ''`; the others are `none` when unset.
`caFileContent` is the outcome of `fs.readFileSync(process.env.REDIS_TLS_CA)`:
the file bytes when readable, `none` when the read throws. -/
structure Env where
  redisUrl : String
  redisTls : Option String
  redisTlsCa : Option String
  redisTlsRejectUnauthorized : Option String
  caFileContent : Option String
deriving DecidableEq

/-- The TLS options object handed to the driver. -/
structure TlsConfig where
  ca : Option String
  rejectUnauthorized : Bool
deriving DecidableEq

/-- Model of `String.prototype.startsWith`, modelled on the character list so that it
evaluates by computation. -/
def jsStartsWith (s pre : String) : Bool := pre.data.isPrefixOf s.data

/-- The function `parseTlsConfig()`: a `rediss://` URL, or `REDIS_TLS` equal to `'true'` or
`'1'`, yields `{ rejectUnauthorized: false }`; otherwise a truthy
`REDIS_TLS_CA` is read — on success the CA bytes together with
`rejectUnauthorized = (REDIS_TLS_REJECT_UNAUTHORIZED !== 'false')`, on a read
failure the degraded `{ rejectUnauthorized: false }`; with no TLS source the
function returns `false` (modelled `none`). -/
def parseTlsConfig (e : Env) : Option TlsConfig :=
  if jsStartsWith e.redisUrl "rediss://" then some ⟨none, false⟩
  else if e.redisTls = some "true" || e.redisTls = some "1" then some ⟨none, false⟩
  else if (match e.redisTlsCa with | some s => s != "" | none => false) then
    match e.caFileContent with
    | some content => some ⟨some content, e.redisTlsRejectUnauthorized ≠ some "false"⟩
    | none => some ⟨none, false⟩
  else none

/-- The `retryStrategy` closure of `buildRedisOptions()`: `none` (stop
reconnecting) past 10 attempts, otherwise `min(times * 200, 5000)` ms. -/
def retryStrategy (times : Nat) : Option Nat :=
  if times > 10 then none else some (min (times * 200) 5000)

/-- Substring test (`String.prototype.includes`). -/
def includesSub (hay needle : List Char) : Bool :=
  match hay with
  | [] => needle.isEmpty
  | _ :: t => needle.isPrefixOf hay || includesSub t needle

/-- Model of `err.message.includes(e)` of the source. -/
def strIncludes (s sub : String) : Bool :=
  includesSub s.toList sub.toList

/-- The transient-error allow-list of `reconnectOnError`. -/
def targetErrors : List String := ["READONLY", "ECONNRESET", "ETIMEDOUT"]

/-- The `reconnectOnError` closure: retry iff the error message contains one
of the allow-listed substrings. -/
def reconnectOnError (msg : String) : Bool :=
  targetErrors.any (fun e => strIncludes msg e)

/-- Where an exception can interrupt the connection attempt of
`initRedisClient`: nowhere (`ok`), in the driver constructor (`ctorThrows` —
configuration / connection opening), or in the liveness probe
(`pingThrows`). -/
inductive AttemptOutcome where
  | ok : AttemptOutcome
  | ctorThrows : AttemptOutcome
  | pingThrows : AttemptOutcome
deriving DecidableEq

/-- Module-level mutable state of redis-client.js: `redisClient` (opaque
handle, `none` = `null`), `isRedisConnected`, and whether `connectionPromise`
is non-null. -/
structure ClientState where
  redisClient : Option Nat
  isRedisConnected : Bool
  connectionPending : Bool
deriving DecidableEq

/-- What a call to `initRedisClient` returns: a settled boolean, or the
already-pending promise of the in-flight attempt. -/
inductive InitResult where
  | done (b : Bool) : InitResult
  | joined : InitResult
deriving DecidableEq

/-- The function `initRedisClient()` as one atomic step (the attempt runs to settlement):
no URL gives `false` immediately; a pending attempt is joined; otherwise the
attempt runs — on success the new client is stored and the availability flag
set, on any exception the `catch` block resets `redisClient = null`,
`isRedisConnected = false` and returns `false`; the `finally` block clears
`connectionPromise` in every case. -/
def initRedisClient (st : ClientState) (hasRedisUrl : Bool) (newClient : Nat)
    (outcome : AttemptOutcome) : InitResult × ClientState :=
  if !hasRedisUrl then (InitResult.done false, st)
  else if st.connectionPending then (InitResult.joined, st)
  else
    match outcome with
    | AttemptOutcome.ok =>
      (InitResult.done true,
       { redisClient := some newClient, isRedisConnected := true, connectionPending := false })
    | AttemptOutcome.ctorThrows =>
      (InitResult.done false,
       { redisClient := none, isRedisConnected := false, connectionPending := false })
    | AttemptOutcome.pingThrows =>
      (InitResult.done false,
       { redisClient := none, isRedisConnected := false, connectionPending := false })

/-!
Fine-grained single-flight model for concurrent initialization.  The source
guard is synchronous: `if (connectionPromise) return connectionPromise;
connectionPromise = (async () => ...)()` — on the single-threaded event loop
no other caller runs between the check and the assignment, so each caller
either starts a fresh attempt (getting a fresh promise) or joins the pending
one.  Promises are identified by the index of the attempt that created them;
a settlement function `Nat → Bool` delivers the same boolean to every awaiter
of the same promise.
-/

/-- Single-flight simulation state: the pending promise (if an attempt is in
flight) and how many attempts have been started. -/
structure InitSim where
  pending : Option Nat
  attemptsStarted : Nat
deriving DecidableEq

/-- The synchronous prologue of one `initRedisClient` call: join the pending
promise, or start a fresh attempt and publish its promise. -/
def initCallSync (s : InitSim) : Nat × InitSim :=
  match s.pending with
  | some p => (p, s)
  | none => (s.attemptsStarted, ⟨some s.attemptsStarted, s.attemptsStarted + 1⟩)

/-- N sequential caller prologues (the order the event loop runs them in);
returns the promise each caller awaits. -/
def runCalls : Nat → InitSim → List Nat × InitSim
  | 0, s => ([], s)
  | n + 1, s =>
    let r := initCallSync s
    let rest := runCalls n r.2
    (r.1 :: rest.1, rest.2)

/-- Characters that are significant in a JavaScript regular expression other
than the glob wildcard `*` (which the source replaces by `.*`). -/
def regexMetaChars : List Char :=
  ['.', '+', '?', '(', ')', '[', ']', '{', '}', '\\', '^', '$', '|']

/-- Patterns whose only regex-significant character is the glob wildcard:
for these the source's glob-to-regex translation is exact. -/
def globSafe (p : String) : Bool :=
  p.toList.all (fun c => c == '*' || !(regexMetaChars.contains c))

/-- A fallback state holding an entry whose expiry timestamp equals the
current clock value. -/
def exC2 : CacheState :=
  ⟨false, false, [], [("cache:k", ⟨Serialized.json (JValue.str "x"), 100⟩)], 100⟩

/-- A fallback state with an expired entry (expiry strictly before now). -/
def exC2w : CacheState :=
  ⟨false, false, [], [("cache:k", ⟨Serialized.json JValue.null, 50⟩)], 100⟩

/-- A fallback state whose only key does not glob-match `cache:account:.`
(the `.` is a literal in a glob) but does regex-match the translation. -/
def exC3 : CacheState :=
  ⟨false, false, [], [("cache:account:X", ⟨Serialized.json JValue.null, 1000⟩)], 0⟩

/-- A two-backend state for exercising `delByPattern` on both stores. -/
def exC3w : CacheState :=
  ⟨true, false,
   [("cache:account:1", ⟨Serialized.json JValue.null, 1000⟩),
    ("cache:other", ⟨Serialized.json JValue.null, 1000⟩)],
   [("cache:account:1", ⟨Serialized.json JValue.null, 1000⟩),
    ("cache:account:2", ⟨Serialized.json JValue.null, 1000⟩),
    ("cache:balance:9", ⟨Serialized.json JValue.null, 1000⟩)],
   0⟩

/-- An empty unavailable state (fallback only). -/
def exEmpty : CacheState := ⟨false, false, [], [], 0⟩

/-- A state whose remote store holds a malformed payload for `cache:k` while
the fallback map is empty; the remote store works (no thrown commands). -/
def exC5 : CacheState :=
  ⟨true, false, [("cache:k", ⟨Serialized.malformed "oops", 1000⟩)], [], 0⟩

/-- A fallback-only state whose fallback map holds a malformed payload. -/
def exC5m : CacheState :=
  ⟨false, false, [], [("cache:k", ⟨Serialized.malformed "oops", 1000⟩)], 0⟩

/-- A session state whose remote store holds a malformed session payload. -/
def exC5s : SessionState :=
  ⟨true, [("session:t", (Serialized.malformed "oops", 1000))], [], 0⟩

/-- An empty fallback-only session state. -/
def exC9 : SessionState := ⟨false, [], [], 0⟩

/-- Thirty-two zero bytes (a concrete `crypto.randomBytes(32)` outcome). -/
def bytes32 : List (Fin 256) := List.replicate 32 0

/-- A different 32-byte randomness outcome. -/
def bytes32b : List (Fin 256) := List.replicate 32 1

/-- An environment with a `rediss://` URL and nothing else set. -/
def exC10 : Env := ⟨"rediss://example", none, none, none, none⟩

/-- An environment with a readable custom CA and no other TLS source. -/
def exC10b : Env := ⟨"redis://example", none, some "ca.pem", none, some "CERT"⟩

lemma mapGet_mapSet {α : Type} (m : List (String × α)) (k : String) (v : α) :
    mapGet (mapSet m k v) k = some v := by
  induction m with
  | nil => simp [mapSet, mapGet]
  | cons p t ih =>
    by_cases h : p.1 = k
    · simp [mapSet, h, mapGet]
    · simp [mapSet, h, mapGet, ih]

lemma mapGet_mapDelete {α : Type} (m : List (String × α)) (k : String) :
    mapGet (mapDelete m k) k = none := by
  induction m with
  | nil => simp [mapDelete, mapGet]
  | cons p t ih =>
    by_cases h : p.1 = k
    · simpa [mapDelete, h] using ih
    · simpa [mapDelete, h, mapGet] using ih

/-- C1: for every key, value and positive ttl, `set(k, v, ttl)` immediately
followed by `get(k)` returns a value equal to `v` (the JSON round trip), in
every backend condition — remote available (working or throwing) and remote
unavailable. -/
theorem C1_set_then_get_returns_value (st : CacheState) (k : String) (v : JValue)
    (ttl : Nat) (h : 0 < ttl) :
    (Cache.get (Cache.set st k v ttl).2 k).1 = Except.ok v := by
  have hlt : st.now < st.now + ttl * 1000 := by omega
  by_cases hA : (st.redisAvailable && !st.redisFaulty) = true
  · simp [Cache.set, Cache.get, hA, redisGetCmd, mapGet_mapSet, jsonStringify,
      payloadTruthy, jsonParse, hlt]
  · simp [Cache.set, Cache.get, hA, Cache.getMemory, mapGet_mapSet, jsonStringify,
      jsonParse, Nat.not_lt.mpr (Nat.le_of_lt hlt), Nat.not_lt_of_lt hlt]

theorem C1_set_then_get_returns_value_witness :
    0 < 60 ∧
      (Cache.get (Cache.set ⟨false, false, [], [], 0⟩ "k" (JValue.str "hi") 60).2 "k").1
        = Except.ok (JValue.str "hi") :=
  ⟨by decide,
   C1_set_then_get_returns_value ⟨false, false, [], [], 0⟩ "k" (JValue.str "hi") 60 (by decide)⟩

lemma mapGet_of_mem {α : Type} {m : List (String × α)} {p : String × α}
    (hnd : (m.map Prod.fst).Nodup) (hp : p ∈ m) : mapGet m p.1 = some p.2 := by
  induction m with
  | nil => cases hp
  | cons q t ih =>
    have hnd' : q.1 ∉ t.map Prod.fst ∧ (t.map Prod.fst).Nodup := by
      rw [List.map_cons] at hnd
      exact List.nodup_cons.mp hnd
    rcases List.mem_cons.mp hp with rfl | hp'
    · simp [mapGet]
    · have hne : q.1 ≠ p.1 := by
        intro h
        exact hnd'.1 (h ▸ List.mem_map_of_mem Prod.fst hp')
      simp [mapGet, hne, ih hnd'.2 hp']

lemma regexOfPattern_eq_globToks {l : List Char} (h : ∀ c ∈ l, c ≠ '.') :
    regexOfPattern l = globToks l := by
  induction l with
  | nil => rfl
  | cons c t ih =>
    have hc := h c (List.mem_cons_self c t)
    have ih' := ih (fun x hx => h x (List.mem_cons_of_mem _ hx))
    by_cases hstar : c = '*'
    · simp [regexOfPattern, globToks, hstar, ih'] at *
      simpa [regexOfPattern, globToks] using ih'
    · simp only [regexOfPattern, globToks, List.map_cons] at *
      simp [hstar, hc, ih']

lemma globSafe_no_dot {pat : String} (h : globSafe pat = true) :
    ∀ c ∈ (CACHE_NS ++ pat).toList, c ≠ '.' := by
  have hns : ∀ c ∈ CACHE_NS.toList, c ≠ '.' := by decide
  intro c hc
  have hsplit : (CACHE_NS ++ pat).toList = CACHE_NS.toList ++ pat.toList := rfl
  rw [hsplit] at hc
  rcases List.mem_append.mp hc with h1 | h2
  · exact hns c h1
  · intro hdot
    subst hdot
    have hf := List.all_eq_true.mp h _ h2
    exact absurd hf (by decide)

lemma redisKeys_alive (st : CacheState) (pat : String)
    (hnd : (st.redis.map Prod.fst).Nodup) :
    ∀ k ∈ redisKeysCmd st pat,
      (match mapGet st.redis k with
       | some e => decide (st.now < e.expiresAt)
       | none => false) = true := by
  intro k hk
  unfold redisKeysCmd at hk
  rcases List.mem_map.mp hk with ⟨p, hpf, rfl⟩
  have hP := List.of_mem_filter hpf
  have hmem := List.mem_of_mem_filter hpf
  rw [mapGet_of_mem hnd hmem]
  simp only [Bool.and_eq_true] at hP
  simp [hP.2]

lemma mem_redisKeys_iff (st : CacheState) (pat : String)
    (hnd : (st.redis.map Prod.fst).Nodup) {p : String × RedisEntry} (hp : p ∈ st.redis) :
    p.1 ∈ redisKeysCmd st pat
      ↔ (globMatch pat p.1 && decide (st.now < p.2.expiresAt)) = true := by
  constructor
  · intro hmem
    rcases List.mem_map.mp hmem with ⟨q, hqf, hq1⟩
    have hq := List.of_mem_filter hqf
    have hqm := List.mem_of_mem_filter hqf
    have hqp : q = p := List.inj_on_of_nodup_map hnd hqm hp hq1
    rw [← hqp]
    exact hq
  · intro hP
    exact List.mem_map.mpr ⟨p, List.mem_filter.mpr ⟨hp, hP⟩, rfl⟩

/-- C2 counterexample: the fallback entry for `k` has its expiry timestamp at
(equal to) the current clock, yet `get(k)` returns the stored value and leaves
the entry in place — the source tests `Date.now() > expiresAt` strictly, so an
entry expiring exactly now is neither treated as absent nor removed. -/
theorem C2_expiry_at_now_counterexample :
    exC2.redisAvailable = false ∧
    mapGet exC2.memoryCache (CACHE_NS ++ "k") = some ⟨Serialized.json (JValue.str "x"), 100⟩ ∧
    exC2.now = 100 ∧
    Cache.get exC2 "k" = (Except.ok (JValue.str "x"), exC2) := by
  refine ⟨rfl, by decide, rfl, rfl⟩

/-- C2 amended: expiry is strict.  (1) A fallback entry whose expiry timestamp
is strictly before the clock is treated as absent by `get` and removed; (2) a
non-null value is returned by fallback `get` only when the clock has not
passed the expiry timestamp; (3) `validateSession` returns a record only when
the clock has not passed its expiry timestamp; (4) a fallback session strictly
past expiry is removed by `validateSession` and absent is returned. -/
theorem C2_strict_expiry_amended :
    (∀ (st : CacheState) (k : String) (e : MemEntry),
      st.redisAvailable = false →
      mapGet st.memoryCache (CACHE_NS ++ k) = some e →
      e.expiresAt < st.now →
      Cache.get st k =
        (Except.ok JValue.null,
         { st with memoryCache := mapDelete st.memoryCache (CACHE_NS ++ k) })) ∧
    (∀ (st : CacheState) (k : String) (v : JValue),
      st.redisAvailable = false →
      (Cache.get st k).1 = Except.ok v →
      v ≠ JValue.null →
      ∃ e, mapGet st.memoryCache (CACHE_NS ++ k) = some e ∧ st.now ≤ e.expiresAt) ∧
    (∀ (st : SessionState) (tok : String) (s : SessionRecord),
      (validateSession st tok).1 = Except.ok (some s) →
      st.now ≤ s.expiresAt) ∧
    (∀ (st : SessionState) (tok : String) (s : SessionRecord),
      st.redisAvailable = false →
      tok ≠ "" →
      mapGet st.memorySessions tok = some s →
      s.expiresAt < st.now →
      validateSession st tok =
        (Except.ok none, { st with memorySessions := mapDelete st.memorySessions tok })) := by
  refine ⟨?_, ?_, ?_, ?_⟩
  · intro st k e hA hm he
    simp [Cache.get, hA, Cache.getMemory, hm, he]
  · intro st k v hA hv hne
    simp only [Cache.get, hA, Bool.false_and, Bool.false_eq_true, if_false,
      Cache.getMemory] at hv
    rcases hm : mapGet st.memoryCache (CACHE_NS ++ k) with _ | e
    · rw [hm] at hv
      simp at hv
      exact absurd hv.symm hne
    · rw [hm] at hv
      by_cases hexp : st.now > e.expiresAt
      · simp [hexp] at hv
        exact absurd hv.symm hne
      · exact ⟨e, rfl, Nat.le_of_not_lt hexp⟩
  · intro st tok s hv
    by_cases ht : tok = ""
    · simp [validateSession, ht] at hv
    · simp only [validateSession, ht, if_false] at hv
      split at hv
      · simp at hv
      · simp at hv
      · rename_i sess heq
        split at hv
        · simp at hv
        · rename_i hexp
          simp at hv
          subst hv
          exact Nat.le_of_not_lt hexp
  · intro st tok s hA ht hm he
    simp [validateSession, ht, hA, hm, he, destroySession]

theorem C2_strict_expiry_amended_witness :
    Cache.get exC2w "k" =
      (Except.ok JValue.null,
       { exC2w with memoryCache := mapDelete exC2w.memoryCache (CACHE_NS ++ "k") }) :=
  C2_strict_expiry_amended.1 exC2w "k" ⟨Serialized.json JValue.null, 50⟩ rfl (by decide)
    (by decide)

lemma contains_redisKeys (st : CacheState) (pat : String)
    (hnd : (st.redis.map Prod.fst).Nodup) {p : String × RedisEntry} (hp : p ∈ st.redis) :
    (redisKeysCmd st pat).contains p.1
      = (globMatch pat p.1 && decide (st.now < p.2.expiresAt)) := by
  have hiff := mem_redisKeys_iff st pat hnd hp
  by_cases hm : (globMatch pat p.1 && decide (st.now < p.2.expiresAt)) = true
  · simp [List.contains, List.elem_eq_mem, hm, hiff.mpr hm]
  · have hnm : p.1 ∉ redisKeysCmd st pat := fun hmem => hm (hiff.mp hmem)
    rw [Bool.eq_iff_iff]
    simp [List.contains, List.elem_eq_mem, hnm, hm]

/-- C3 counterexample: the glob `account:.` (a literal dot under glob
semantics) does not match the fallback key `cache:account:X`, yet
`delByPattern('account:.')` deletes that key and reports one deletion — the
source translates the pattern to a regular expression without escaping, so
`.` matches any character. -/
theorem C3_dot_metachar_counterexample :
    globMatch (CACHE_NS ++ "account:.") "cache:account:X" = false ∧
    Cache.delByPattern exC3 "account:." = (1, { exC3 with memoryCache := [] }) :=
  ⟨by decide, by decide⟩

lemma globToks_no_anyChar (p : List Char) : ∀ tk ∈ globToks p, tk ≠ RTok.anyChar := by
  intro tk htk
  rcases List.mem_map.mp htk with ⟨c, _, rfl⟩
  by_cases h : c = '*' <;> simp [h]

lemma rmatch_eq_gmatch : ∀ (toks : List RTok), (∀ tk ∈ toks, tk ≠ RTok.anyChar) →
    ∀ s : List Char, (∀ c ∈ s, isLineTerminator c = false) →
      rmatch toks s = gmatch toks s := by
  intro toks
  induction toks with
  | nil =>
    intro _ s _
    rfl
  | cons tk ps ih =>
    intro hnoany s hs
    have ihps := ih (fun u hu => hnoany u (List.mem_cons_of_mem _ hu))
    cases tk with
    | lit c =>
      cases s with
      | nil => rfl
      | cons x t =>
        have ht : ∀ d ∈ t, isLineTerminator d = false :=
          fun d hd => hs d (List.mem_cons_of_mem _ hd)
        simp [rmatch, gmatch, ihps t ht]
    | anyChar => exact absurd rfl (hnoany _ (List.mem_cons_self _ _))
    | anyStar =>
      show starSearch (rmatch ps) s = anySuffixSearch (gmatch ps) s
      revert hs
      induction s with
      | nil =>
        intro _
        simp [starSearch, anySuffixSearch, ihps [] (by simp)]
      | cons x t ihs =>
        intro hs
        have hx : isLineTerminator x = false := hs x (List.mem_cons_self _ _)
        have ht : ∀ d ∈ t, isLineTerminator d = false :=
          fun d hd => hs d (List.mem_cons_of_mem _ hd)
        simp [starSearch, anySuffixSearch, hx, ihps (x :: t) hs, ihs ht]

/-- C3 amended: for glob patterns containing no regex metacharacter other
than `*` itself, and states whose fallback keys contain no JavaScript line
terminators (the translated regex's `.`/`.*` cannot match those, while the
glob wildcard can), `delByPattern` removes from the fallback map exactly the
keys matching the glob under the namespace prefix (leaving the others
unchanged), removes the matching live keys from the remote store when it is
usable, and returns the remote deletion count plus the fallback deletion
count, with no deduplication between the backends. -/
theorem C3_glob_delete_amended (st : CacheState) (pat : String)
    (hsafe : globSafe pat = true)
    (hterm : ∀ p ∈ st.memoryCache, ∀ c ∈ p.1.data, isLineTerminator c = false)
    (hnd : (st.redis.map Prod.fst).Nodup) :
    Cache.delByPattern st pat =
      ((if st.redisAvailable && !st.redisFaulty
          then (redisKeysCmd st (CACHE_NS ++ pat)).length else 0) +
        (st.memoryCache.filter (fun p => globMatch (CACHE_NS ++ pat) p.1)).length,
       { st with
         redis :=
           if st.redisAvailable && !st.redisFaulty then
             st.redis.filter
               (fun p => !(globMatch (CACHE_NS ++ pat) p.1 && decide (st.now < p.2.expiresAt)))
           else st.redis,
         memoryCache :=
           st.memoryCache.filter (fun p => !(globMatch (CACHE_NS ++ pat) p.1)) }) := by
  have htok : regexOfPattern (CACHE_NS ++ pat).toList = globToks (CACHE_NS ++ pat).toList :=
    regexOfPattern_eq_globToks (globSafe_no_dot hsafe)
  have hrm : ∀ s : String, (∀ c ∈ s.data, isLineTerminator c = false) →
      rmatch (regexOfPattern (CACHE_NS ++ pat).toList) s.toList
        = globMatch (CACHE_NS ++ pat) s := by
    intro s hsTerm
    rw [htok]
    exact rmatch_eq_gmatch (globToks (CACHE_NS ++ pat).toList)
      (globToks_no_anyChar (CACHE_NS ++ pat).toList) s.toList hsTerm
  have hmem1 : st.memoryCache.filter
        (fun p => rmatch (regexOfPattern (CACHE_NS ++ pat).toList) p.1.toList)
      = st.memoryCache.filter (fun p => globMatch (CACHE_NS ++ pat) p.1) :=
    List.filter_congr (fun p hp => hrm p.1 (hterm p hp))
  have hmem2 : st.memoryCache.filter
        (fun p => !(rmatch (regexOfPattern (CACHE_NS ++ pat).toList) p.1.toList))
      = st.memoryCache.filter (fun p => !(globMatch (CACHE_NS ++ pat) p.1)) :=
    List.filter_congr (fun p hp => by rw [hrm p.1 (hterm p hp)])
  have hrmD : ∀ s : String, (∀ c ∈ s.data, isLineTerminator c = false) →
      rmatch (regexOfPattern (CACHE_NS.data ++ pat.data)) s.data
        = globMatch (CACHE_NS ++ pat) s := hrm
  have hmem1D : st.memoryCache.filter
        (fun p => rmatch (regexOfPattern (CACHE_NS.data ++ pat.data)) p.1.data)
      = st.memoryCache.filter (fun p => globMatch (CACHE_NS ++ pat) p.1) :=
    List.filter_congr (fun p hp => hrmD p.1 (hterm p hp))
  have hmem2D : st.memoryCache.filter
        (fun p => !rmatch (regexOfPattern (CACHE_NS.data ++ pat.data)) p.1.data)
      = st.memoryCache.filter (fun p => !globMatch (CACHE_NS ++ pat) p.1) :=
    List.filter_congr (fun p hp => by rw [hrmD p.1 (hterm p hp)])
  by_cases hA : (st.redisAvailable && !st.redisFaulty) = true
  · by_cases hk : (redisKeysCmd st (CACHE_NS ++ pat)).length > 0
    · have hkeep : (redisKeysCmd st (CACHE_NS ++ pat)).filter
          (fun k => match mapGet st.redis k with
                    | some e => decide (st.now < e.expiresAt)
                    | none => false) = redisKeysCmd st (CACHE_NS ++ pat) :=
        List.filter_eq_self.mpr (redisKeys_alive st (CACHE_NS ++ pat) hnd)
      have hfl : st.redis.filter
            (fun p => !((redisKeysCmd st (CACHE_NS ++ pat)).contains p.1))
          = st.redis.filter
              (fun p => !(globMatch (CACHE_NS ++ pat) p.1 && decide (st.now < p.2.expiresAt))) :=
        List.filter_congr (fun p hp => by rw [contains_redisKeys st (CACHE_NS ++ pat) hnd hp])
      simp only [Cache.delByPattern, hA, if_true, hk, if_pos, redisDelCmd, hkeep, hfl,
        hmem1, hmem2]
    · have hnil : redisKeysCmd st (CACHE_NS ++ pat) = [] :=
        List.length_eq_zero.mp (Nat.eq_zero_of_not_pos hk)
      have hall : ∀ p ∈ st.redis,
          (globMatch (CACHE_NS ++ pat) p.1 && decide (st.now < p.2.expiresAt)) = false := by
        intro p hp
        by_cases hm : (globMatch (CACHE_NS ++ pat) p.1 && decide (st.now < p.2.expiresAt)) = true
        · have := (mem_redisKeys_iff st (CACHE_NS ++ pat) hnd hp).mpr hm
          rw [hnil] at this
          cases this
        · exact Bool.eq_false_iff.mpr hm
      have hself : st.redis.filter
            (fun p => !globMatch (CACHE_NS ++ pat) p.1 || !decide (st.now < p.2.expiresAt))
          = st.redis :=
        List.filter_eq_self.mpr (fun p hp => by rw [← Bool.not_and, hall p hp]; rfl)
      simp [Cache.delByPattern, hA, hk, hnil, hmem1D, hmem2D, hself]
  · simp [Cache.delByPattern, hA, hmem1D, hmem2D]

theorem C3_glob_delete_amended_witness :
    Cache.delByPattern exC3w "account:*" =
      (3, { exC3w with
            redis := [("cache:other", ⟨Serialized.json JValue.null, 1000⟩)],
            memoryCache := [("cache:balance:9", ⟨Serialized.json JValue.null, 1000⟩)] }) :=
  C3_glob_delete_amended exC3w "account:*" (by decide) (by decide) (by decide)

/-- C4, demonstrating the code bug at the failing input: with an empty
fallback-only state, the first `getOrSet` invokes the producer (which yields
`null`), stores the serialized `null` under the key as the source's
penetration-protection comment promises — yet a second `getOrSet` within the
TTL window invokes the producer again, because `get` surfaces the cached
`null` as `null` and the `cached !== null` test cannot distinguish it from a
miss. -/
theorem C4_cached_null_reinvokes_producer :
    (Cache.getOrSet exEmpty "k" (some JValue.null) 60).2.2 = true ∧
    mapGet (Cache.getOrSet exEmpty "k" (some JValue.null) 60).2.1.memoryCache
        (CACHE_NS ++ "k") = some ⟨Serialized.json JValue.null, 60000⟩ ∧
    (Cache.getOrSet (Cache.getOrSet exEmpty "k" (some JValue.null) 60).2.1 "k"
        (some JValue.null) 60).2.2 = true :=
  ⟨by decide, by decide, by decide⟩

/-- C5 counterexample: the remote store is available and holds a malformed
payload for `k` while the fallback map is empty; `get(k)` does not raise the
deserialization failure — the parse error is caught inside the remote-path
`try` and the call falls through to the fallback map, returning `null`. -/
theorem C5_remote_malformed_swallowed_counterexample :
    Cache.get exC5 "k" = (Except.ok JValue.null, exC5) :=
  rfl

/-- C5 amended: a deserialization failure reaches the caller on the cache
fallback path and on `validateSession`'s remote path; on `get`'s remote path
it is caught and the call falls through to the fallback map instead of being
raised. -/
theorem C5_deserialization_amended :
    (∀ (st : CacheState) (k : String) (e : MemEntry) (raw : String),
      st.redisAvailable = false →
      mapGet st.memoryCache (CACHE_NS ++ k) = some e →
      e.value = Serialized.malformed raw →
      ¬ st.now > e.expiresAt →
      (Cache.get st k).1 = Except.error ("SyntaxError: " ++ raw)) ∧
    (∀ (st : SessionState) (tok : String) (raw : String) (exp : Nat),
      st.redisAvailable = true →
      tok ≠ "" →
      mapGet st.redis (SESSION_NS ++ tok) = some (Serialized.malformed raw, exp) →
      st.now < exp →
      raw ≠ "" →
      (validateSession st tok).1 = Except.error ("SyntaxError: " ++ raw)) ∧
    (∀ (st : CacheState) (k : String) (e : RedisEntry) (raw : String),
      st.redisAvailable = true →
      st.redisFaulty = false →
      mapGet st.redis (CACHE_NS ++ k) = some e →
      e.value = Serialized.malformed raw →
      st.now < e.expiresAt →
      raw ≠ "" →
      Cache.get st k = Cache.getMemory st (CACHE_NS ++ k)) := by
  refine ⟨?_, ?_, ?_⟩
  · intro st k e raw hA hm hmal hexp
    simp [Cache.get, hA, Cache.getMemory, hm, hmal, hexp, jsonParse]
  · intro st tok raw exp hA ht hm hlt hraw
    simp [validateSession, ht, hA, sessionRedisGet, hm, hlt, payloadTruthy, hraw, jsonParse]
  · intro st k e raw hA hF hm hmal hlt hraw
    simp [Cache.get, hA, hF, redisGetCmd, hm, hmal, hlt, payloadTruthy, hraw, jsonParse]

theorem C5_deserialization_amended_witness :
    (Cache.get exC5m "k").1 = Except.error ("SyntaxError: " ++ "oops") ∧
    (validateSession exC5s "t").1 = Except.error ("SyntaxError: " ++ "oops") ∧
    Cache.get exC5 "k" = Cache.getMemory exC5 (CACHE_NS ++ "k") :=
  ⟨C5_deserialization_amended.1 exC5m "k" ⟨Serialized.malformed "oops", 1000⟩ "oops"
      rfl (by decide) rfl (by decide),
   C5_deserialization_amended.2.1 exC5s "t" "oops" 1000 rfl (by decide) (by decide)
      (by decide) (by decide),
   C5_deserialization_amended.2.2 exC5 "k" ⟨Serialized.malformed "oops", 1000⟩ "oops"
      rfl rfl (by decide) rfl (by decide) (by decide)⟩

/-- C6: when an exception interrupts the connection attempt at any stage —
the configuration/constructor phase or the liveness probe — `initRedisClient`
does not throw: it returns `false`, resets the stored client handle to none
(no partially-initialized client is retained) and sets the availability flag
to unavailable; the pending-attempt guard is cleared by the `finally` block.
Totality of the step function is the model of "never throws". -/
theorem C6_init_fails_closed (st : ClientState) (newClient : Nat)
    (outcome : AttemptOutcome) (hp : st.connectionPending = false)
    (hex : outcome ≠ AttemptOutcome.ok) :
    initRedisClient st true newClient outcome
      = (InitResult.done false,
         { redisClient := none, isRedisConnected := false, connectionPending := false }) := by
  cases outcome with
  | ok => exact absurd rfl hex
  | ctorThrows => simp [initRedisClient, hp]
  | pingThrows => simp [initRedisClient, hp]

theorem C6_init_fails_closed_witness :
    initRedisClient ⟨some 7, true, false⟩ true 9 AttemptOutcome.pingThrows
      = (InitResult.done false,
         { redisClient := none, isRedisConnected := false, connectionPending := false }) :=
  C6_init_fails_closed ⟨some 7, true, false⟩ 9 AttemptOutcome.pingThrows rfl (by decide)

lemma runCalls_pending (n : Nat) (s : InitSim) (p : Nat) (hp : s.pending = some p) :
    runCalls n s = (List.replicate n p, s) := by
  induction n with
  | zero => simp [runCalls]
  | succ m ih => simp [runCalls, initCallSync, hp, ih, List.replicate_succ]

/-- C7: with no attempt in flight, N ≥ 1 callers of the connection-establish
operation start exactly one underlying attempt (the started-attempt counter
rises by one), every caller awaits the very same published promise, and —
for any settlement of the promises — all N callers observe the same
success/failure boolean. -/
theorem C7_single_flight_init (s : InitSim) (N : Nat) (settle : Nat → Bool)
    (hN : 1 ≤ N) (hp : s.pending = none) :
    (runCalls N s).1 = List.replicate N s.attemptsStarted ∧
    (runCalls N s).2.attemptsStarted = s.attemptsStarted + 1 ∧
    (runCalls N s).1.map settle = List.replicate N (settle s.attemptsStarted) := by
  obtain ⟨M, rfl⟩ : ∃ M, N = M + 1 := ⟨N - 1, by omega⟩
  have hfirst : initCallSync s
      = (s.attemptsStarted, ⟨some s.attemptsStarted, s.attemptsStarted + 1⟩) := by
    simp [initCallSync, hp]
  have hjoin := runCalls_pending M ⟨some s.attemptsStarted, s.attemptsStarted + 1⟩
    s.attemptsStarted rfl
  simp [runCalls, hfirst, hjoin, List.replicate_succ, List.map_replicate]

theorem C7_single_flight_init_witness :
    (runCalls 5 ⟨none, 0⟩).1 = List.replicate 5 0 ∧
    (runCalls 5 ⟨none, 0⟩).2.attemptsStarted = 0 + 1 ∧
    (runCalls 5 ⟨none, 0⟩).1.map (fun _ => true) = List.replicate 5 true :=
  C7_single_flight_init ⟨none, 0⟩ 5 (fun _ => true) (by decide) rfl

/-- C8: the reconnection backoff is linear and bounded — for attempt index
1 ≤ n ≤ 10 the delay is `min (n * 200) 5000` milliseconds, past 10 attempts
the strategy yields no delay (reconnection abandoned) — and automatic retry
fires only when the error message carries one of the allow-listed transient
markers (read-only replica, connection reset, timeout). -/
theorem C8_backoff_and_allowlist :
    (∀ n : Nat, 1 ≤ n → n ≤ 10 → retryStrategy n = some (min (n * 200) 5000)) ∧
    (∀ n : Nat, n > 10 → retryStrategy n = none) ∧
    (∀ msg : String, reconnectOnError msg = true →
      strIncludes msg "READONLY" = true ∨ strIncludes msg "ECONNRESET" = true ∨
        strIncludes msg "ETIMEDOUT" = true) := by
  refine ⟨?_, ?_, ?_⟩
  · intro n _ h10
    unfold retryStrategy
    rw [if_neg (by omega)]
  · intro n h
    unfold retryStrategy
    rw [if_pos h]
  · intro msg h
    simp [reconnectOnError, targetErrors] at h
    rcases h with h | h | h
    · exact Or.inl h
    · exact Or.inr (Or.inl h)
    · exact Or.inr (Or.inr h)

theorem C8_backoff_and_allowlist_witness :
    retryStrategy 3 = some (min (3 * 200) 5000) ∧ retryStrategy 11 = none ∧
    (strIncludes "x ECONNRESET y" "READONLY" = true ∨
      strIncludes "x ECONNRESET y" "ECONNRESET" = true ∨
      strIncludes "x ECONNRESET y" "ETIMEDOUT" = true) :=
  ⟨C8_backoff_and_allowlist.1 3 (by decide) (by decide),
   C8_backoff_and_allowlist.2.1 11 (by decide),
   C8_backoff_and_allowlist.2.2 "x ECONNRESET y" (by decide)⟩

lemma hexDigit_inj : ∀ x y : Fin 16, hexDigit x = hexDigit y → x = y := by decide

lemma byteToHexChars_inj {a b : Fin 256} (h : byteToHexChars a = byteToHexChars b) :
    a = b := by
  simp only [byteToHexChars, List.cons.injEq, and_true] at h
  obtain ⟨h1, h2⟩ := h
  have v1 : a.val / 16 = b.val / 16 := congrArg Fin.val (hexDigit_inj _ _ h1)
  have v2 : a.val % 16 = b.val % 16 := congrArg Fin.val (hexDigit_inj _ _ h2)
  apply Fin.ext
  omega

lemma bytesToHex_inj : ∀ {as bs : List (Fin 256)}, bytesToHex as = bytesToHex bs → as = bs := by
  intro as
  induction as with
  | nil =>
    intro bs h
    cases bs with
    | nil => rfl
    | cons b u => simp [bytesToHex, byteToHexChars] at h
  | cons a t ih =>
    intro bs h
    cases bs with
    | nil => simp [bytesToHex, byteToHexChars] at h
    | cons b u =>
      simp only [bytesToHex, List.map_cons, List.flatten_cons, byteToHexChars,
        List.cons_append, List.nil_append, List.cons.injEq] at h
      obtain ⟨h1, h2, h3⟩ := h
      have hab : a = b := byteToHexChars_inj (by simp [byteToHexChars, h1, h2])
      have htu : t = u := ih h3
      rw [hab, htu]

lemma bytesToHex_length (bs : List (Fin 256)) : (bytesToHex bs).length = 2 * bs.length := by
  induction bs with
  | nil => rfl
  | cons a t ih =>
    have hcons : bytesToHex (a :: t) = byteToHexChars a ++ bytesToHex t := rfl
    rw [hcons, List.length_append, ih]
    simp [byteToHexChars]
    omega

lemma generateSessionToken_length (bytes : List (Fin 256)) :
    (generateSessionToken bytes).length = 8 + 2 * bytes.length := by
  have h1 : (generateSessionToken bytes).length
      = ("session_".data ++ bytesToHex bytes).length := rfl
  have h2 : "session_".data.length = 8 := by decide
  rw [h1, List.length_append, bytesToHex_length, h2]

lemma generateSessionToken_ne_empty (bytes : List (Fin 256)) :
    generateSessionToken bytes ≠ "" := by
  intro h
  have hl := congrArg String.length h
  rw [generateSessionToken_length] at hl
  simp at hl

lemma generateSessionToken_inj {as bs : List (Fin 256)}
    (h : generateSessionToken as = generateSessionToken bs) : as = bs := by
  apply bytesToHex_inj
  have hd : "session_".data ++ bytesToHex as = "session_".data ++ bytesToHex bs :=
    congrArg String.data h
  exact List.append_cancel_left hd

/-- C9: `createSession` yields a token of the fixed length 72 (the literal
tag plus 64 hex characters) whose randomness part determines it injectively —
distinct 32-byte (256-bit) randomness yields distinct tokens; an immediate
`validateSession` returns the record with the given userId; after
`destroySession` the same token validates to absent.  Both backend conditions
are covered (the state is arbitrary). -/
theorem C9_session_lifecycle (st : SessionState) (userId : String)
    (bytes bytes' : List (Fin 256)) (hlen : bytes.length = 32) :
    (createSession st userId bytes).1.length = 72 ∧
    (generateSessionToken bytes' = generateSessionToken bytes → bytes' = bytes) ∧
    (validateSession (createSession st userId bytes).2
        (createSession st userId bytes).1).1
      = Except.ok (some ⟨userId, st.now, st.now + SESSION_DURATION⟩) ∧
    (validateSession
        (destroySession (createSession st userId bytes).2 (createSession st userId bytes).1)
        (createSession st userId bytes).1).1 = Except.ok none := by
  have hne := generateSessionToken_ne_empty bytes
  have h1 : st.now < st.now + (SESSION_DURATION / 1000) * 1000 := by
    unfold SESSION_DURATION
    omega
  have h2 : ¬ st.now > st.now + SESSION_DURATION := by
    unfold SESSION_DURATION
    omega
  by_cases hA : st.redisAvailable = true
  · have hcreate : createSession st userId bytes
        = (generateSessionToken bytes,
           { st with
             redis :=
               mapSet st.redis (SESSION_NS ++ generateSessionToken bytes)
                 (jsonStringify ⟨userId, st.now, st.now + SESSION_DURATION⟩,
                  st.now + (SESSION_DURATION / 1000) * 1000) }) := by
      simp [createSession, hA]
    refine ⟨?_, fun h => generateSessionToken_inj h, ?_, ?_⟩
    · rw [hcreate]
      rw [generateSessionToken_length, hlen]
    · rw [hcreate]
      simp [validateSession, hne, hA, sessionRedisGet, mapGet_mapSet, jsonStringify,
        payloadTruthy, jsonParse, h1, h2]
    · rw [hcreate]
      simp [destroySession, validateSession, hne, hA, sessionRedisGet, mapGet_mapDelete]
  · have hA' : st.redisAvailable = false := Bool.not_eq_true _ |>.mp hA
    have hcreate : createSession st userId bytes
        = (generateSessionToken bytes,
           { st with
             memorySessions :=
               mapSet st.memorySessions (generateSessionToken bytes)
                 ⟨userId, st.now, st.now + SESSION_DURATION⟩ }) := by
      simp [createSession, hA']
    refine ⟨?_, fun h => generateSessionToken_inj h, ?_, ?_⟩
    · rw [hcreate]
      rw [generateSessionToken_length, hlen]
    · rw [hcreate]
      simp [validateSession, hne, hA', mapGet_mapSet, h2]
    · rw [hcreate]
      simp [destroySession, validateSession, hne, hA', mapGet_mapDelete]

theorem C9_session_lifecycle_witness :
    bytes32.length = 32 ∧
    ((createSession exC9 "admin" bytes32).1.length = 72 ∧
     (generateSessionToken bytes32b = generateSessionToken bytes32 → bytes32b = bytes32) ∧
     (validateSession (createSession exC9 "admin" bytes32).2
         (createSession exC9 "admin" bytes32).1).1
       = Except.ok (some ⟨"admin", exC9.now, exC9.now + SESSION_DURATION⟩) ∧
     (validateSession
         (destroySession (createSession exC9 "admin" bytes32).2
           (createSession exC9 "admin" bytes32).1)
         (createSession exC9 "admin" bytes32).1).1 = Except.ok none) :=
  ⟨by decide, C9_session_lifecycle exC9 "admin" bytes32 bytes32b (by decide)⟩

/-- C10: whenever TLS comes from the `rediss://` URL scheme or from the
explicit `REDIS_TLS` override (`'true'` or `'1'`), the derived configuration
disables certificate verification (`rejectUnauthorized = false`); conversely a
configuration with verification enabled can only arise from a configured,
non-empty `REDIS_TLS_CA` whose file was successfully read. -/
theorem C10_tls_verification_policy :
    (∀ e : Env,
      (jsStartsWith e.redisUrl "rediss://" = true ∨
        e.redisTls = some "true" ∨ e.redisTls = some "1") →
      parseTlsConfig e = some ⟨none, false⟩) ∧
    (∀ (e : Env) (cfg : TlsConfig),
      parseTlsConfig e = some cfg →
      cfg.rejectUnauthorized = true →
      (∃ ca, e.redisTlsCa = some ca ∧ ca ≠ "") ∧
        (∃ content, e.caFileContent = some content)) := by
  constructor
  · intro e h
    unfold parseTlsConfig
    by_cases hu : jsStartsWith e.redisUrl "rediss://" = true
    · simp [hu]
    · rcases h with h | h | h
      · exact absurd h hu
      · simp [hu, h]
      · simp [hu, h]
  · intro e cfg hcfg hrej
    unfold parseTlsConfig at hcfg
    split at hcfg
    · cases hcfg
      simp at hrej
    · split at hcfg
      · cases hcfg
        simp at hrej
      · split at hcfg
        · rename_i hca
          split at hcfg
          · rename_i content hcontent
            refine ⟨?_, ⟨content, hcontent⟩⟩
            cases hTlsCa : e.redisTlsCa with
            | none => rw [hTlsCa] at hca; cases hca
            | some s =>
              rw [hTlsCa] at hca
              exact ⟨s, rfl, by simpa using hca⟩
          · cases hcfg
            simp at hrej
        · cases hcfg

theorem C10_tls_verification_policy_witness :
    parseTlsConfig exC10 = some ⟨none, false⟩ ∧
    ((∃ ca, exC10b.redisTlsCa = some ca ∧ ca ≠ "") ∧
      (∃ content, exC10b.caFileContent = some content)) :=
  ⟨C10_tls_verification_policy.1 exC10 (Or.inl (by decide)),
   C10_tls_verification_policy.2 exC10b ⟨some "CERT", true⟩ (by decide) rfl⟩
